import Mathlib

/-!
Verification of the network and namespace subsystems of the hk kernel.

Shallow embedding of the Rust sources under `src/kernel/`:
machine integers (`u32`, `u64`) become `Nat` with explicit `% 2^32`
wrapping where the source wraps; fallible operations return `Option`
or `Except`; raw-pointer cursors of the packet buffer become integer
offsets from `head` (so `head = 0` and `end = alloc_size`); the global
tables threaded through `RwLock`s become explicit values passed to the
functions that read them.
-/

namespace HK

set_option maxRecDepth 8000

/-- Modulus of `u32` arithmetic, 2^32. -/
def U32 : Nat := 4294967296

/-- Embeds `u32::wrapping_add` on values already reduced mod 2^32
(`as u32` casts of lengths are absorbed by the outer `%`). -/
def wadd (a b : Nat) : Nat := (a + b) % U32

/-- Embeds `u32::wrapping_sub` for operands below 2^32. -/
def wsub (a b : Nat) : Nat := (a % U32 + U32 - b % U32) % U32

/-- Embeds `u32::count_ones`, used by the routing table for the length of a
prefix of a netmask (`Route::prefix_len` in `src/kernel/net/route.rs`). -/
def popcount32 (m : Nat) : Nat := (List.range 32).countP (fun i => m.testBit i)

-- ===========================================================================
-- src/kernel/net/route.rs
-- ===========================================================================

/-- Embeds `NetError` (only the variant the routing code produces is needed). -/
inductive NetError
  | NoRoute
  | WouldBlock
deriving DecidableEq, Repr

/-- Embeds `Route` from `src/kernel/net/route.rs`. `Ipv4Addr` is its `u32`
value, and the `Arc<NetDevice>` is modelled by a device identifier. -/
structure Route where
  dest : Nat
  netmask : Nat
  gateway : Nat
  dev : Nat
  flags : Nat
  metric : Nat
deriving DecidableEq, Repr

namespace Route

/-- Embeds `Route::matches`: `(dest & self.netmask) == (self.dest & self.netmask)`. -/
def rtMatches (r : Route) (dest : Nat) : Bool :=
  Nat.land dest r.netmask == Nat.land r.dest r.netmask

/-- Embeds `Route::is_gateway`: `!self.gateway.is_unspecified()`
(`is_unspecified` is "value is zero" in `ipv4.rs`). -/
def is_gateway (r : Route) : Bool := r.gateway != 0

/-- Embeds `Route::prefix_len`: `self.netmask.to_u32().count_ones()`. -/
def prefLen (r : Route) : Nat := popcount32 r.netmask

end Route

/-- Route flag constants from `route::flags`. -/
def RTF_UP : Nat := 0x0001
def RTF_GATEWAY : Nat := 0x0002
def RTF_HOST : Nat := 0x0004
def RTF_DEFAULT : Nat := 0x10000

/-- The route pushed by `add_default_route(gateway, dev)`. -/
def add_default_route (gateway : Nat) (dev : Nat) : Route :=
  { dest := 0, netmask := 0, gateway := gateway, dev := dev
    flags := RTF_UP + RTF_GATEWAY + RTF_DEFAULT, metric := 100 }

/-- The route pushed by `add_interface_route(dest, netmask, dev)`. -/
def add_interface_route (dest netmask : Nat) (dev : Nat) : Route :=
  { dest := dest, netmask := netmask, gateway := 0, dev := dev
    flags := RTF_UP, metric := 0 }

/-- The scanning loop of `route_lookup`: iterate the table keeping the
current best route and its prefix length, replacing it exactly when
`best_route.is_none() || prefix_len > best_prefix_len`. -/
def lookupAux : List Route → Nat → Option Route → Nat → Option Route
  | [], _, best, _ => best
  | r :: rs, dest, best, bestLen =>
    if r.rtMatches dest then
      (if best.isNone ∨ r.prefLen > bestLen then
        lookupAux rs dest (some r) r.prefLen
      else
        lookupAux rs dest best bestLen)
    else
      lookupAux rs dest best bestLen

/-- Embeds `route_lookup(dest)` over an explicit routing table (the global
`ROUTING_TABLE` vector in insertion order). Returns the output device
and next-hop, or `NoRoute`. -/
def route_lookup (table : List Route) (dest : Nat) : Except NetError (Nat × Nat) :=
  match lookupAux table dest none 0 with
  | some r => .ok (r.dev, if r.is_gateway then r.gateway else dest)
  | none => .error .NoRoute

/-- Spec-side rendering of §4.3 for the refinement claim C2: the list of
matching routes (`(dest & netmask) == (destination & netmask)`). -/
def specMatches (table : List Route) (dest : Nat) : List Route :=
  table.filter (fun r => r.rtMatches dest)

/-- Predicate: `r` attains the greatest prefix length among the routes of `l`. -/
def isMaxOf (l : List Route) (r : Route) : Bool :=
  l.all (fun q => decide (q.prefLen ≤ r.prefLen))

/-- Spec-side selection of §4.3: among matches, the first (insertion
order) route of greatest prefix length. -/
def specSelect (table : List Route) (dest : Nat) : Option Route :=
  (specMatches table dest).find? (isMaxOf (specMatches table dest))

-- ===========================================================================
-- src/kernel/net/ethernet.rs (the part the packet buffer depends on)
-- ===========================================================================

/-- Embeds `EtherType` from `src/kernel/net/ethernet.rs`; the `u16` payload of
`Unknown` becomes a `Nat`. -/
inductive EtherType
  | Ipv4
  | Arp
  | Ipv6
  | Vlan
  | Unknown (v : Nat)
deriving DecidableEq, Repr

-- ===========================================================================
-- src/kernel/net/skb.rs
-- ===========================================================================

/-- Embeds `ChecksumState` from `src/kernel/net/skb.rs`. -/
inductive ChecksumState
  | None
  | Unnecessary
  | Partial
  | Complete
deriving DecidableEq, Repr

/-- Embeds `MAX_SKB_SIZE`. -/
def MAX_SKB_SIZE : Nat := 2048

/-- Embeds `SkBuff` from `src/kernel/net/skb.rs`. The four raw-pointer cursors
become offsets into the allocation: `head = 0` is implicit, `size` is
both `alloc_size` and the `end` cursor, and `data`/`tail` are offsets
(hence `head ≤ data` is automatic for the `Nat` offsets). Addresses and
the device / DMA references are identifiers. -/
structure SkBuff where
  data : Nat
  tail : Nat
  size : Nat
  protocol : EtherType
  ip_protocol : Nat
  transport_header : Nat
  network_header : Nat
  mac_header : Nat
  dev : Option Nat
  dma_addr : Option Nat
  ip_summed : ChecksumState
  saddr : Option Nat
  daddr : Option Nat
deriving DecidableEq, Repr

namespace SkBuff

/-- Embeds `SkBuff::alloc(headroom, data_len)`: `None` when
`headroom + data_len > MAX_SKB_SIZE`; otherwise a zeroed buffer with
`data = head + headroom`, `tail = data` and all attributes at their
defaults. (The out-of-memory `null` return of the allocator is environment
failure and is not modelled.) -/
def alloc (headroom data_len : Nat) : Option SkBuff :=
  if headroom + data_len > MAX_SKB_SIZE then none
  else some
    { data := headroom, tail := headroom, size := headroom + data_len
      protocol := .Unknown 0, ip_protocol := 0
      transport_header := 0, network_header := 0, mac_header := 0
      dev := none, dma_addr := none, ip_summed := .None
      saddr := none, daddr := none }

/-- Embeds `SkBuff::len`: `tail - data`. -/
def len (s : SkBuff) : Nat := s.tail - s.data

/-- Embeds `SkBuff::headroom`: `data - head`. -/
def headroom (s : SkBuff) : Nat := s.data

/-- Embeds `SkBuff::tailroom`: `end - tail`. -/
def tailroom (s : SkBuff) : Nat := s.size - s.tail

/-- Embeds `SkBuff::reserve(len)`: unconditionally `data += len; tail = data`.
The two `debug_assert!`s (buffer empty, `headroom + len <= alloc_size`)
are compiled out of release builds and do not gate the cursor move. -/
def reserve (s : SkBuff) (n : Nat) : SkBuff :=
  { s with data := s.data + n, tail := s.data + n }

/-- Embeds `SkBuff::push(len)`: fails when `headroom < len`, else `data -= len`. -/
def push (s : SkBuff) (n : Nat) : Option SkBuff :=
  if s.headroom < n then none
  else some { s with data := s.data - n }

/-- Embeds `SkBuff::pull(len)`: fails when `len() < len`, else `data += len`. -/
def pull (s : SkBuff) (n : Nat) : Option SkBuff :=
  if s.len < n then none
  else some { s with data := s.data + n }

/-- Embeds `SkBuff::put(len)`: fails when `tailroom < len`, else `tail += len`. -/
def put (s : SkBuff) (n : Nat) : Option SkBuff :=
  if s.tailroom < n then none
  else some { s with tail := s.tail + n }

/-- Embeds `SkBuff::trim(len)`: fails when `len() < len`, else `tail -= len`. -/
def trim (s : SkBuff) (n : Nat) : Option SkBuff :=
  if s.len < n then none
  else some { s with tail := s.tail - n }

/-- Embeds `SkBuff::reset(headroom)`: `data = head + headroom; tail = data`,
then clears `protocol`, `ip_protocol`, the three header offsets,
`ip_summed`, `saddr` and `daddr`. `dev` and `dma_addr` are not touched
by the source. -/
def reset (s : SkBuff) (headroom : Nat) : SkBuff :=
  { s with data := headroom, tail := headroom
           protocol := .Unknown 0, ip_protocol := 0
           transport_header := 0, network_header := 0, mac_header := 0
           ip_summed := .None, saddr := none, daddr := none }

end SkBuff

/-- The cursor invariant of §3 / §8: `head ≤ data ≤ tail ≤ end`.
In the offset model `head = 0 ≤ data` always holds, leaving
`data ≤ tail ∧ tail ≤ size`. -/
def pbWf (s : SkBuff) : Prop := s.data ≤ s.tail ∧ s.tail ≤ s.size

instance (s : SkBuff) : Decidable (pbWf s) := by unfold pbWf; infer_instance

-- ===========================================================================
-- src/kernel/ns/user.rs
-- ===========================================================================

/-- Embeds `UidGidExtent` from `src/kernel/ns/user.rs` (`u32` fields). -/
structure UidGidExtent where
  first : Nat
  lower_first : Nat
  count : Nat
deriving DecidableEq, Repr

/-- Embeds `u32::saturating_add` for operands below 2^32. -/
def sat_add (a b : Nat) : Nat := min (a + b) (U32 - 1)

/-- Embeds `UidGidMap::map_id_down(id)`: first extent with
`id >= first && id < first.saturating_add(count)` yields
`lower_first.saturating_add(id - first)`. The `UidGidMap` is its
extent vector. -/
def map_id_down : List UidGidExtent → Nat → Option Nat
  | [], _ => none
  | e :: rest, id =>
    if e.first ≤ id ∧ id < sat_add e.first e.count then
      some (sat_add e.lower_first (id - e.first))
    else
      map_id_down rest id

/-- Embeds `UidGidMap::map_id_up(id)`: first extent with
`id >= lower_first && id < lower_first.saturating_add(count)` yields
`first.saturating_add(id - lower_first)`. -/
def map_id_up : List UidGidExtent → Nat → Option Nat
  | [], _ => none
  | e :: rest, id =>
    if e.lower_first ≤ id ∧ id < sat_add e.lower_first e.count then
      some (sat_add e.first (id - e.lower_first))
    else
      map_id_up rest id

/-- Embeds `UidGidMap::set_mapping(new_extents)`: `Err(1)` (EPERM) when the
extents are already non-empty, otherwise install `new_extents`.
The state-passing rendering returns the updated extent vector. -/
def set_mapping (extents new_extents : List UidGidExtent) : Except Int (List UidGidExtent) :=
  if !extents.isEmpty then .error 1
  else .ok new_extents

/-- Embeds `UidGidMap::new_identity()`: starts from `new()` (empty extents) and
runs `set_mapping` with the single extent
`{first: 0, lower_first: 0, count: u32::MAX}`, ignoring the result. -/
def new_identity : List UidGidExtent :=
  match set_mapping [] [⟨0, 0, U32 - 1⟩] with
  | .ok l => l
  | .error _ => []

-- ===========================================================================
-- src/kernel/ns/pid.rs
-- ===========================================================================

/-- The two `BTreeMap`s of a `PidNamespace` and its `child_reaper`,
modelled extensionally (a `BTreeMap<K, V>` is a partial map `K → Option V`;
`Tid` is a `Nat`). The allocator and parent link are not needed by the
map-inverse claim. -/
structure PidNamespace where
  pid_map : Nat → Option Nat
  tid_map : Nat → Option Nat
  child_reaper : Option Nat

/-- Embeds `BTreeMap::insert`. -/
def mapInsert (m : Nat → Option Nat) (k v : Nat) : Nat → Option Nat :=
  fun x => if x = k then some v else m x

/-- Embeds `BTreeMap::remove` (the mapping part; the returned old value is read
separately where the source uses it). -/
def mapErase (m : Nat → Option Nat) (k : Nat) : Nat → Option Nat :=
  fun x => if x = k then none else m x

/-- Embeds `PidNamespace::register(pid, tid)`: insert both directions; if
`pid == 1` and no reaper is set, the task becomes the child reaper. -/
def PidNamespace.register (ns : PidNamespace) (pid tid : Nat) : PidNamespace :=
  { pid_map := mapInsert ns.pid_map pid tid
    tid_map := mapInsert ns.tid_map tid pid
    child_reaper :=
      if pid = 1 ∧ ns.child_reaper.isNone then some tid else ns.child_reaper }

/-- Embeds `PidNamespace::unregister(tid)`: remove `tid` from `tid_map`; when it
was present with PID `p`, remove `p` from `pid_map` as well. -/
def PidNamespace.unregister (ns : PidNamespace) (tid : Nat) : PidNamespace :=
  match ns.tid_map tid with
  | some p =>
    { ns with tid_map := mapErase ns.tid_map tid, pid_map := mapErase ns.pid_map p }
  | none =>
    { ns with tid_map := mapErase ns.tid_map tid }

/-- Maps of a fresh namespace (`new_init` / `clone_ns`): both empty, no
reaper. -/
def PidNamespace.empty : PidNamespace :=
  { pid_map := fun _ => none, tid_map := fun _ => none, child_reaper := none }

/-- One call against the namespace maps. -/
inductive PidOp
  | register (pid tid : Nat)
  | unregister (tid : Nat)

/-- Apply one call. -/
def PidNamespace.applyOp (ns : PidNamespace) : PidOp → PidNamespace
  | .register pid tid => ns.register pid tid
  | .unregister tid => ns.unregister tid

/-- Run a call sequence from a starting state. -/
def PidNamespace.runOps (ns : PidNamespace) : List PidOp → PidNamespace
  | [] => ns
  | op :: rest => (ns.applyOp op).runOps rest

/-- Freshness precondition of C10 on a call sequence: each `register`
uses a `pid` and a `tid` not currently registered. -/
def validOps (ns : PidNamespace) : List PidOp → Bool
  | [] => true
  | .register pid tid :: rest =>
    (ns.pid_map pid).isNone && (ns.tid_map tid).isNone
      && validOps (ns.register pid tid) rest
  | .unregister tid :: rest => validOps (ns.unregister tid) rest

/-- The two maps are exact inverses. -/
def mapsInverse (ns : PidNamespace) : Prop :=
  ∀ p t, ns.pid_map p = some t ↔ ns.tid_map t = some p

-- ===========================================================================
-- src/kernel/fs (vfs error type) and src/kernel/net/socket_file.rs
-- ===========================================================================

/-- Embeds `FsError` variants used by the embedded paths. -/
inductive FsError
  | IoError
  | NotFound
  | NotSupported
  | WouldBlock
deriving DecidableEq, Repr

/-- Embeds `FsError::from_errno` from `src/kernel/net/socket_file.rs`:
`11 => WouldBlock`, everything else `IoError`. -/
def FsError.from_errno (errno : Int) : FsError :=
  if errno = 11 then .WouldBlock else .IoError

/-- Embeds `TcpState` from the TCP module. -/
inductive TcpState
  | Closed
  | Listen
  | SynSent
  | SynReceived
  | Established
  | FinWait1
  | FinWait2
  | CloseWait
  | Closing
  | LastAck
  | TimeWait
deriving DecidableEq, Repr

/-- The socket state `SocketFileOps::read` touches: the sticky error
(atomic `i32`, negative errno or 0), the RX byte queue, the EOF flag,
the optional TCP control block (only its state is consulted), and the
socket-level nonblocking flag. -/
structure Socket where
  error : Int
  rx_buffer : List Nat
  eof : Bool
  tcp : Option TcpState
  nonblocking : Bool
deriving DecidableEq, Repr

/-- Outcome of one pass of the `read` loop. `blocked` marks the
suspension on `rx_wait` (after wake the loop re-runs on the new state). -/
inductive ReadResult
  | ok (n : Nat) (bytes : List Nat)
  | err (e : FsError)
  | blocked
deriving DecidableEq, Repr

/-- Embeds `SocketFileOps::read`, one iteration of its loop: sticky error
first (consumed and returned through `FsError::from_errno(-err)`),
then RX drain of `min(buf.len(), rx.len())` bytes from the front, then
EOF, then the Closed/TimeWait check, then `EWOULDBLOCK` or suspension. -/
def socket_read (s : Socket) (buf_len : Nat) (file_nonblock : Bool) :
    ReadResult × Socket :=
  let nonblock := file_nonblock || s.nonblocking
  if s.error ≠ 0 then
    (.err (FsError.from_errno (-s.error)), { s with error := 0 })
  else if !s.rx_buffer.isEmpty then
    let n := min buf_len s.rx_buffer.length
    (.ok n (s.rx_buffer.take n), { s with rx_buffer := s.rx_buffer.drop n })
  else if s.eof then
    (.ok 0 [], s)
  else if s.tcp = some .Closed ∨ s.tcp = some .TimeWait then
    (.ok 0 [], s)
  else if nonblock then
    (.err .WouldBlock, s)
  else
    (.blocked, s)

-- ===========================================================================
-- src/kernel/fs/ext4.rs — extent tree search and readpage
-- ===========================================================================

/-- Little-endian `u16` read at a byte offset (`read_unaligned` of a
packed field). Out-of-slice bytes read as 0. -/
def readU16 (bs : List Nat) (off : Nat) : Nat :=
  bs.getD off 0 + 256 * bs.getD (off + 1) 0

/-- Little-endian `u32` read at a byte offset. -/
def readU32 (bs : List Nat) (off : Nat) : Nat :=
  bs.getD off 0 + 256 * bs.getD (off + 1) 0
    + 65536 * bs.getD (off + 2) 0 + 16777216 * bs.getD (off + 3) 0

/-- Embeds `EXT4_EXT_MAGIC`. -/
def EXT4_EXT_MAGIC : Nat := 0xF30A

/-- Embeds `EXT4_EXTENTS_FL`. -/
def EXT4_EXTENTS_FL : Nat := 0x00080000

/-- The block device visible to `extent_tree_search` through
`read_block(&self.bdev, block, block_size)`: physical block number to
block contents or an I/O failure. -/
def BlockDev : Type := Nat → Except FsError (List Nat)

/-- The leaf scan of `extent_tree_search` (`depth == 0`): entry `i` is
an `Ext4Extent` `{ee_block: u32, ee_len: u16, ee_start_hi: u16,
ee_start_lo: u32}` at byte offset `12 + i*12`; its length is
`ee_len & 0x7FFF`; a hit at logical `L` yields
`((hi << 32) | lo) + (L - ee_block)`; a miss of all `entries` entries is
`NotFound` (sparse hole). `k` counts the remaining entries. -/
def search_extents (bs : List Nat) (L : Nat) : Nat → Nat → Except FsError Nat
  | _, 0 => .error .NotFound
  | i, k + 1 =>
    let off := 12 + i * 12
    let ee_block := readU32 bs off
    let eeLen := Nat.land (readU16 bs (off + 4)) 0x7FFF
    if ee_block ≤ L ∧ L < ee_block + eeLen then
      .ok ((readU16 bs (off + 6)) * 4294967296 + readU32 bs (off + 8) + (L - ee_block))
    else
      search_extents bs L (i + 1) k

/-- The index scan of `extent_tree_search` (`depth > 0`): entry `i` is
an `Ext4ExtentIdx` `{ei_block: u32, ei_leaf_lo: u32, ei_leaf_hi: u16}`;
its range is `[ei_block[i], ei_block[i+1])`, the last entry reaching
`u64::MAX`. A hit returns the child block `(hi << 32) | lo`; a miss of
all entries is `NotFound`. -/
def search_indices (bs : List Nat) (L : Nat) : Nat → Nat → Except FsError Nat
  | _, 0 => .error .NotFound
  | i, k + 1 =>
    let off := 12 + i * 12
    let ei_block := readU32 bs off
    let next_idx_block := if k > 0 then readU32 bs (off + 12) else 18446744073709551615
    if ei_block ≤ L ∧ L < next_idx_block then
      .ok ((readU16 bs (off + 8)) * 4294967296 + readU32 bs (off + 4))
    else
      search_indices bs L (i + 1) k

/-- Embeds `Ext4SbData::extent_tree_search(extent_data, logical_block)`:
require header magic `0xF30A`; at `depth == 0` scan the leaf extents,
otherwise descend through the first covering index into the child block
read from the device. The source recursion is bounded only by the
on-disk tree, so a `fuel` argument caps the depth here; exhausted fuel
(never reached at any fuel at least the tree height) reports `IoError`. -/
def extent_tree_search (bdev : BlockDev) :
    Nat → List Nat → Nat → Except FsError Nat
  | 0, _, _ => .error .IoError
  | fuel + 1, bs, L =>
    if readU16 bs 0 ≠ EXT4_EXT_MAGIC then .error .IoError
    else
      let entries := readU16 bs 2
      let depth := readU16 bs 6
      if depth = 0 then search_extents bs L 0 entries
      else
        match search_indices bs L 0 entries with
        | .error e => .error e
        | .ok child_block =>
          match bdev child_block with
          | .error e => .error e
          | .ok child_data => extent_tree_search bdev fuel child_data L

/-- Embeds `Ext4SbData::extent_map_block(inode, logical_block)`: reject inodes
without `EXT4_EXTENTS_FL`, then search from the 60-byte `i_block`
region. -/
def extent_map_block (bdev : BlockDev) (fuel : Nat)
    (i_flags : Nat) (i_block : List Nat) (logical_block : Nat) :
    Except FsError Nat :=
  if Nat.land i_flags EXT4_EXTENTS_FL = 0 then .error .NotSupported
  else extent_tree_search bdev fuel i_block logical_block

/-- Embeds `PAGE_SIZE` of the page cache. -/
def PAGE_SIZE : Nat := 4096

/-- Embeds `Ext4InodeOps::readpage(inode, page_offset, buf)`, from the point
where the ext4 inode is in hand: compute the logical block
`page_offset * PAGE_SIZE / block_size`, map it through the extent tree
(errors propagate verbatim through `?`), read the physical block, and
report `min(buf.len(), block.len())` bytes copied. -/
def ext4_readpage (bdev : BlockDev) (block_size fuel : Nat)
    (i_flags : Nat) (i_block : List Nat)
    (page_offset buf_len : Nat) : Except FsError Nat :=
  let logical_block := page_offset * PAGE_SIZE / block_size
  match extent_map_block bdev fuel i_flags i_block logical_block with
  | .error e => .error e
  | .ok phys_block =>
    match bdev phys_block with
    | .error e => .error e
    | .ok block_data => .ok (min buf_len block_data.length)

-- ===========================================================================
-- src/kernel/net/tcp_input.rs — process_established
-- ===========================================================================

/-- The header fields `process_established` reads: `seq()`, `ack_seq()`,
`window()` and the ACK/RST/SYN/FIN flag bits. -/
structure TcpHdr where
  seq : Nat
  ack_seq : Nat
  window : Nat
  ack : Bool
  rst : Bool
  syn : Bool
  fin : Bool
deriving DecidableEq, Repr

/-- A retransmit-queue entry `{seq, data}`. -/
structure TcpSegment where
  seq : Nat
  data : List Nat
deriving DecidableEq, Repr

/-- Embeds `ECONNRESET`. -/
def ECONNRESET : Int := 104

/-- Embeds `BTreeMap::insert` for the out-of-order queue, as an association
list keyed by sequence number. -/
def oooInsert (m : List (Nat × List Nat)) (k : Nat) (v : List Nat) :
    List (Nat × List Nat) :=
  if m.any (fun e => e.1 = k) then
    m.map (fun e => if e.1 = k then (k, v) else e)
  else
    m ++ [(k, v)]

/-- The connection state `process_established` reads and writes: the
TCB sequence variables and queues together with the socket pieces it
touches (`deliver_data` appends to the RX queue, `set_error`,
`set_eof`); `acks_sent` counts `tcp_send_ack` emissions. -/
structure Conn where
  state : TcpState
  snd_una : Nat
  snd_nxt : Nat
  snd_wnd : Nat
  rcv_nxt : Nat
  retransmit_queue : List TcpSegment
  ooo_queue : List (Nat × List Nat)
  rx_buffer : List Nat
  error : Int
  eof : Bool
  acks_sent : Nat
deriving DecidableEq, Repr

/-- Embeds `process_established(socket, hdr, payload, saddr)` from
`src/kernel/net/tcp_input.rs`: RST closes with `ECONNRESET`; a valid
ACK (`ack.wrapping_sub(snd_una) <= snd_nxt.wrapping_sub(snd_una)`)
advances `snd_una`, retains exactly the retransmit entries with
`seg.seq.wrapping_add(seg.data.len() as u32) > ack` (plain unsigned
`u32` comparison in the source) and stores the window; in-order payload
is delivered and `rcv_nxt` advanced, future payload within `2^31` goes
to the out-of-order queue with a duplicate ACK; FIN advances `rcv_nxt`,
moves to CloseWait, ACKs and sets EOF. -/
def process_established (c : Conn) (hdr : TcpHdr) (payload : List Nat) : Conn :=
  if hdr.rst then
    { c with state := .Closed, error := -ECONNRESET }
  else
    let c1 :=
      if hdr.ack then
        let ack := hdr.ack_seq
        if wsub ack c.snd_una ≤ wsub c.snd_nxt c.snd_una then
          { c with snd_una := ack
                   retransmit_queue := c.retransmit_queue.filter
                     (fun seg => wadd seg.seq seg.data.length > ack)
                   snd_wnd := hdr.window }
        else c
      else c
    let c2 :=
      if payload.length ≠ 0 then
        if hdr.seq = c1.rcv_nxt then
          { c1 with rx_buffer := c1.rx_buffer ++ payload
                    rcv_nxt := wadd c1.rcv_nxt payload.length
                    acks_sent := c1.acks_sent + 1 }
        else if wsub hdr.seq c1.rcv_nxt < 0x80000000 then
          { c1 with ooo_queue := oooInsert c1.ooo_queue hdr.seq payload
                    acks_sent := c1.acks_sent + 1 }
        else c1
      else c1
    if hdr.fin then
      { c2 with rcv_nxt := wadd c2.rcv_nxt 1, state := .CloseWait
                acks_sent := c2.acks_sent + 1, eof := true }
    else c2

/-- Removal criterion of C1 as the claim states it: the right edge
`seq + len` is at or before `ack` in modular signed order, i.e.
`((seq + len) - ack) as i32 <= 0`. -/
def rightEdgeCovered (seg : TcpSegment) (ack : Nat) : Prop :=
  wsub (wadd seg.seq seg.data.length) ack = 0
    ∨ wsub (wadd seg.seq seg.data.length) ack ≥ 2147483648

-- ===========================================================================
-- Auxiliary definitions for the proofs, and concrete inputs
-- ===========================================================================

/-- Embeds `lookupAux` restricted to the matching routes (the scan only ever
updates on a match, so the two agree on `specMatches`). -/
def goMax : List Route → Option Route → Nat → Option Route
  | [], best, _ => best
  | r :: rs, best, bestLen =>
    if best.isNone ∨ r.prefLen > bestLen then goMax rs (some r) r.prefLen
    else goMax rs best bestLen

/-- The first element of `b :: ms` that strictly improves on everything
before it (the running maximum the scan keeps). -/
def fmf (b : Route) : List Route → Route
  | [] => b
  | r :: rs => if r.prefLen > b.prefLen then fmf r rs else fmf b rs

/-- A 10-byte packet-buffer allocation (`alloc(0, 10)`), for C3. -/
def skb_c3 : SkBuff :=
  { data := 0, tail := 0, size := 10
    protocol := .Unknown 0, ip_protocol := 0
    transport_header := 0, network_header := 0, mac_header := 0
    dev := none, dma_addr := none, ip_summed := .None
    saddr := none, daddr := none }

/-- A packet buffer carrying every attribute, for C4: device 5 attached,
DMA address 77, headers tagged, checksum verified, addresses set. -/
def skb_c4 : SkBuff :=
  { data := 16, tail := 50, size := 256
    protocol := .Ipv4, ip_protocol := 6
    transport_header := 34, network_header := 14, mac_header := 0
    dev := some 5, dma_addr := some 77, ip_summed := .Unnecessary
    saddr := some 0x0A000001, daddr := some 0x0A000002 }

/-- Concrete extent list for C6. -/
def extC6 : List UidGidExtent := [⟨0, 0, 100⟩]

/-- A socket with the sticky error `-ECONNRESET` and a non-empty RX
queue, for C8. -/
def sock_c8 : Socket :=
  { error := -104, rx_buffer := [1, 2, 3], eof := false
    tcp := some .Established, nonblocking := false }

/-- Retransmit entry for C1: 128 bytes at sequence 0xFFFFFF00, so its
right edge 0xFFFFFF80 wraps to lie before the acknowledgement 0x100 in
sequence space. -/
def c1_seg : TcpSegment := ⟨0xFFFFFF00, List.replicate 128 0⟩

/-- Established connection for C1: the send window
`[snd_una, snd_nxt) = [0xFFFFFF00, 0x100)` straddles the 2^32 wrap and
the retransmit queue holds `c1_seg`. -/
def c1_conn : Conn :=
  { state := .Established, snd_una := 0xFFFFFF00, snd_nxt := 0x100
    snd_wnd := 512, rcv_nxt := 0
    retransmit_queue := [c1_seg], ooo_queue := []
    rx_buffer := [], error := 0, eof := false, acks_sent := 0 }

/-- Incoming pure ACK for C1, acknowledging everything up to 0x100. -/
def c1_hdr : TcpHdr :=
  { seq := 0, ack_seq := 0x100, window := 512
    ack := true, rst := false, syn := false, fin := false }

/-- Concrete call sequence for C10. -/
def c10_ops : List PidOp :=
  [.register 1 100, .register 2 200, .unregister 100, .register 3 300]

/-- Counterexample table for C9: a directly-connected interface route with
netmask 0.0.0.0 on device 1, inserted before the default route
(device 2, gateway 0.0.0.0) installed by `add_default_route`. -/
def c9_table : List Route :=
  [add_interface_route 0 0 1, add_default_route 0 2]

/-- Witness table for C9: only the default route via gateway 10.0.0.1 on
device 7. -/
def c9w_table : List Route := [add_default_route 0x0A000001 7]

/-- On-disk extent data for C7: a depth-0 header (magic 0xF30A, one
entry) and a single extent mapping logical blocks `[0, 1)` to physical
block 5 — so logical block 1 is a sparse hole. Padded to the 60 bytes
of `i_block`. -/
def holeExtentData : List Nat :=
  [0x0A, 0xF3, 1, 0, 4, 0, 0, 0, 0, 0, 0, 0,
   0, 0, 0, 0, 1, 0, 0, 0, 5, 0, 0, 0] ++ List.replicate 36 0

/-- Block device for C7: never consulted on the hole path. -/
def c7_bdev : BlockDev := fun _ => .error .IoError

/-- Decidable equality for `Except` results. -/
instance {ε α : Type} [DecidableEq ε] [DecidableEq α] : DecidableEq (Except ε α)
  | .error e1, .error e2 =>
    match decEq e1 e2 with
    | isTrue h => isTrue (h ▸ rfl)
    | isFalse h => isFalse fun hc => h (Except.error.inj hc)
  | .error _, .ok _ => isFalse fun hc => Except.noConfusion hc
  | .ok _, .error _ => isFalse fun hc => Except.noConfusion hc
  | .ok a1, .ok a2 =>
    match decEq a1 a2 with
    | isTrue h => isTrue (h ▸ rfl)
    | isFalse h => isFalse fun hc => h (Except.ok.inj hc)

-- ===========================================================================
-- Theorems
-- ===========================================================================

/-- C1 (code_bug): in Established, on this valid ACK (0x100 with
`[snd_una, snd_nxt) = [0xFFFFFF00, 0x100)`), the right edge of the queued segment
(0xFFFFFF80) is at or before the ACK in modular signed order — the
claim and §4.4 require it to be dropped — yet `process_established`
retains it, because the source compares the wrapped edge against `ack`
with a plain unsigned `>`; §9 calls naive unsigned comparison of
seq/ack a bug. -/
theorem tcp_ack_prune_keeps_covered_segment :
    wsub c1_hdr.ack_seq c1_conn.snd_una ≤ wsub c1_conn.snd_nxt c1_conn.snd_una ∧
    rightEdgeCovered c1_seg c1_hdr.ack_seq ∧
    (process_established c1_conn c1_hdr []).retransmit_queue = [c1_seg] := by
  refine ⟨by decide, Or.inr (by decide), by decide⟩

/-- The scan of `route_lookup` only ever acts on matching routes, so it
equals the accumulator scan over the filtered table. -/
theorem lookupAux_eq_go (ts : List Route) (dest : Nat) :
    ∀ (best : Option Route) (bl : Nat),
    lookupAux ts dest best bl = goMax (specMatches ts dest) best bl := by
  induction ts with
  | nil =>
    intro best bl
    rfl
  | cons r rs ih =>
    intro best bl
    cases hm : r.rtMatches dest with
    | true =>
      have hfilter : specMatches (r :: rs) dest = r :: specMatches rs dest := by
        simp [specMatches, List.filter_cons, hm]
      simp only [lookupAux, goMax, hfilter]
      rw [hm, if_pos rfl]
      by_cases hc : best.isNone = true ∨ r.prefLen > bl
      · rw [if_pos hc, if_pos hc]
        exact ih (some r) r.prefLen
      · rw [if_neg hc, if_neg hc]
        exact ih best bl
    | false =>
      have hfilter : specMatches (r :: rs) dest = specMatches rs dest := by
        simp [specMatches, List.filter_cons, hm]
      simp only [lookupAux, hfilter]
      rw [hm, if_neg Bool.false_ne_true]
      exact ih best bl

/-- Once the scan holds a best route, it computes the first
strict-improvement chain `fmf`. -/
theorem goMax_some : ∀ (ms : List Route) (b : Route),
    goMax ms (some b) b.prefLen = some (fmf b ms) := by
  intro ms
  induction ms with
  | nil =>
    intro b
    rfl
  | cons r rs ih =>
    intro b
    simp only [goMax, fmf]
    by_cases hc : r.prefLen > b.prefLen
    · rw [if_pos (Or.inr hc), if_pos hc]
      exact ih r
    · have hnone : ¬((some b).isNone = true ∨ r.prefLen > b.prefLen) := by
        rintro (hn | hgt)
        · simp at hn
        · exact hc hgt
      rw [if_neg hnone, if_neg hc]
      exact ih b

/-- The strict-improvement chain lands on the first route attaining the
maximal prefix length: it is what `find?` with the is-a-maximum
predicate returns. -/
theorem find?_max : ∀ (ms : List Route) (b : Route),
    (b :: ms).find? (isMaxOf (b :: ms)) = some (fmf b ms) := by
  intro ms
  induction ms with
  | nil =>
    intro b
    have hb : isMaxOf [b] b = true := by simp [isMaxOf]
    rw [List.find?_cons_of_pos _ hb]
    rfl
  | cons r rs ih =>
    intro b
    by_cases hlt : r.prefLen > b.prefLen
    · have hpred : isMaxOf (b :: r :: rs) = isMaxOf (r :: rs) := by
        funext x
        simp only [isMaxOf, List.all_cons]
        cases hr : decide (r.prefLen ≤ x.prefLen) with
        | false => simp
        | true =>
          have hb : b.prefLen ≤ x.prefLen :=
            le_trans (le_of_lt hlt) (of_decide_eq_true hr)
          simp [hb]
      have hb : isMaxOf (b :: r :: rs) b = false := by
        simp only [isMaxOf, List.all_cons]
        have hnr : ¬(r.prefLen ≤ b.prefLen) := not_le.mpr hlt
        simp [hnr]
      rw [List.find?_cons_of_neg _ (by simp [hb]), hpred, ih r]
      simp only [fmf, if_pos hlt]
    · have hle : r.prefLen ≤ b.prefLen := not_lt.mp hlt
      have hpred : isMaxOf (b :: r :: rs) = isMaxOf (b :: rs) := by
        funext x
        simp only [isMaxOf, List.all_cons]
        cases hbx : decide (b.prefLen ≤ x.prefLen) with
        | false => simp
        | true =>
          have hrx : r.prefLen ≤ x.prefLen :=
            le_trans hle (of_decide_eq_true hbx)
          simp [hrx]
      rw [hpred]
      by_cases hQb : isMaxOf (b :: rs) b = true
      · rw [List.find?_cons_of_pos _ hQb]
        have ihb := ih b
        rw [List.find?_cons_of_pos _ hQb] at ihb
        simp only [fmf, if_neg hlt]
        exact ihb
      · have hQb' : ¬(isMaxOf (b :: rs) b = true) := hQb
        have hQr : ¬(isMaxOf (b :: rs) r = true) := by
          intro hEq
          simp only [isMaxOf, List.all_cons, Bool.and_eq_true, decide_eq_true_eq,
            List.all_eq_true] at hEq
          obtain ⟨hbr, hall⟩ := hEq
          apply hQb
          simp only [isMaxOf, List.all_cons, Bool.and_eq_true, decide_eq_true_eq,
            List.all_eq_true]
          constructor
          · exact le_refl _
          · intro q hq
            exact le_trans (hall q hq) hle
        rw [List.find?_cons_of_neg _ hQb', List.find?_cons_of_neg _ hQr]
        have ihb := ih b
        rw [List.find?_cons_of_neg _ hQb'] at ihb
        simp only [fmf, if_neg hlt]
        exact ihb

/-- The scan starting empty computes the selection of the spec. -/
theorem lookupAux_none_eq_specSelect (ts : List Route) (dest : Nat) :
    lookupAux ts dest none 0 = specSelect ts dest := by
  rw [lookupAux_eq_go ts dest none 0]
  unfold specSelect
  cases hms : specMatches ts dest with
  | nil => rfl
  | cons b rest =>
    have hstep : goMax (b :: rest) none 0 = goMax rest (some b) b.prefLen := by
      simp only [goMax]
      have hcond : (none : Option Route).isNone = true ∨ b.prefLen > 0 :=
        Or.inl rfl
      rw [if_pos hcond]
    rw [hstep, goMax_some rest b, find?_max rest b]

/-- C2 (confirmed): `route_lookup` selects, among the routes whose
network matches the destination, the first (in insertion order) of
greatest prefix length; the next-hop is the gateway of that route when
non-zero and the destination otherwise; with no match it fails with
"no route". -/
theorem route_lookup_longest_prefix_match (table : List Route) (dest : Nat) :
    route_lookup table dest =
      match specSelect table dest with
      | some r => .ok (r.dev, if r.is_gateway then r.gateway else dest)
      | none => .error NetError.NoRoute := by
  unfold route_lookup
  rw [lookupAux_none_eq_specSelect]

/-- Once the scan holds some best route it never returns to none. -/
theorem goMax_isSome : ∀ (ms : List Route) (b : Route) (bl : Nat),
    (goMax ms (some b) bl).isSome = true := by
  intro ms
  induction ms with
  | nil =>
    intro b bl
    rfl
  | cons r rs ih =>
    intro b bl
    simp only [goMax]
    by_cases hc : (some b).isNone = true ∨ r.prefLen > bl
    · rw [if_pos hc]
      exact ih r r.prefLen
    · rw [if_neg hc]
      exact ih b bl

/-- If any route of the table matches the destination, the scan of
`route_lookup` produces a route. -/
theorem lookupAux_isSome_of_matching (ts : List Route) (dest : Nat)
    (d : Route) (hd : d ∈ ts) (hm : d.rtMatches dest = true) :
    (lookupAux ts dest none 0).isSome = true := by
  rw [lookupAux_eq_go]
  have hmem : d ∈ specMatches ts dest := List.mem_filter.mpr ⟨hd, hm⟩
  cases hms : specMatches ts dest with
  | nil =>
    rw [hms] at hmem
    exact absurd hmem (List.not_mem_nil d)
  | cons b rest =>
    simp only [goMax]
    have hcond : (none : Option Route).isNone = true ∨ b.prefLen > 0 :=
      Or.inl rfl
    rw [if_pos hcond]
    exact goMax_isSome rest b b.prefLen

/-- C9 (counterexample): with the table
`[interface route 0.0.0.0/0 on device 1, default route (gateway
0.0.0.0) on device 2]` — the second entry installed by
`add_default_route` — the lookup of 8.8.8.8 succeeds but returns the
device 1 of the earlier tying netmask-0 route with the destination as
next-hop, not device 2 of the default route with its gateway. -/
theorem default_route_not_selected :
    route_lookup c9_table 0x08080808 = .ok (1, 0x08080808) ∧
    add_default_route 0 2 ∈ c9_table ∧
    route_lookup c9_table 0x08080808 ≠
      .ok ((add_default_route 0 2).dev, (add_default_route 0 2).gateway) :=
  ⟨rfl, by decide, by decide⟩

/-- C9 (amended): if the routing table contains a route with netmask
0.0.0.0 (as installed by `add_default_route`), `route_lookup` succeeds
for every destination — "no route" is unreachable; and when the default
route is the only route matching the destination, the lookup returns
its device, with the next-hop its gateway when non-zero and the
destination otherwise. -/
theorem default_route_lookup (table : List Route) (d : Route) (dest : Nat)
    (hmem : d ∈ table) (hmask : d.netmask = 0) :
    (∃ v, route_lookup table dest = .ok v) ∧
    ((∀ r ∈ table, r.rtMatches dest = true → r = d) →
      route_lookup table dest =
        .ok (d.dev, if d.is_gateway then d.gateway else dest)) := by
  have hmatch : d.rtMatches dest = true := by
    have hz : ∀ n : Nat, Nat.land n 0 = 0 := by
      intro n
      simp [Nat.land, Nat.bitwise]
    simp [Route.rtMatches, hmask, hz]
  constructor
  · have hsome := lookupAux_isSome_of_matching table dest d hmem hmatch
    unfold route_lookup
    cases hlk : lookupAux table dest none 0 with
    | none =>
      rw [hlk] at hsome
      exact absurd hsome (by simp)
    | some r =>
      exact ⟨(r.dev, if r.is_gateway then r.gateway else dest), rfl⟩
  · intro honly
    have hmem' : d ∈ specMatches table dest := List.mem_filter.mpr ⟨hmem, hmatch⟩
    have hall : ∀ x ∈ specMatches table dest, x = d := by
      intro x hx
      obtain ⟨hx1, hx2⟩ := List.mem_filter.mp hx
      exact honly x hx1 hx2
    unfold route_lookup
    rw [lookupAux_none_eq_specSelect]
    unfold specSelect
    cases hms : specMatches table dest with
    | nil =>
      rw [hms] at hmem'
      exact absurd hmem' (List.not_mem_nil d)
    | cons b rest =>
      have hb : b = d := by
        apply hall
        rw [hms]
        exact List.mem_cons_self b rest
      have hPb : isMaxOf (b :: rest) b = true := by
        simp only [isMaxOf, List.all_eq_true, decide_eq_true_eq]
        intro q hq
        have hq' : q = d := by
          apply hall
          rw [hms]
          exact hq
        rw [hq', hb]
      rw [List.find?_cons_of_pos _ hPb]
      dsimp only
      rw [hb]

/-- C9 (witness): the amended theorem on a table holding only the
default route via gateway 10.0.0.1 on device 7, destination 8.8.8.8. -/
theorem default_route_lookup_witness :
    add_default_route 0x0A000001 7 ∈ c9w_table ∧
    (add_default_route 0x0A000001 7).netmask = 0 ∧
    ((∃ v, route_lookup c9w_table 0x08080808 = .ok v) ∧
     ((∀ r ∈ c9w_table, r.rtMatches 0x08080808 = true →
         r = add_default_route 0x0A000001 7) →
       route_lookup c9w_table 0x08080808 =
         .ok ((add_default_route 0x0A000001 7).dev,
           if (add_default_route 0x0A000001 7).is_gateway
           then (add_default_route 0x0A000001 7).gateway
           else 0x08080808))) :=
  ⟨by decide, rfl,
   default_route_lookup c9w_table (add_default_route 0x0A000001 7) 0x08080808
     (by decide) rfl⟩

/-- C3 (counterexample): `reset` performs no bounds check, so resetting
a 10-byte buffer to headroom 11 moves `data` and `tail` past `end`,
breaking `head ≤ data ≤ tail ≤ end`. -/
theorem pb_reset_beyond_end_breaks_invariant :
    pbWf skb_c3 ∧ ¬ pbWf (skb_c3.reset 11) :=
  ⟨by decide, by decide⟩

/-- C3 (amended): `alloc`, `push`, `pull`, `put` and `trim` preserve the
cursor invariant for every argument (the out-of-room cases fail and
leave the buffer unchanged); `reserve` and `reset` preserve it exactly
when the requested position stays within the allocation
(`data + n ≤ end`, resp. `headroom ≤ alloc_size`) — beyond that they
move the cursors past `end` unchecked. -/
theorem pb_ops_preserve_invariant (s : SkBuff) (h : pbWf s) :
    (∀ hr dl s', SkBuff.alloc hr dl = some s' → pbWf s') ∧
    (∀ n s', s.push n = some s' → pbWf s') ∧
    (∀ n s', s.pull n = some s' → pbWf s') ∧
    (∀ n s', s.put n = some s' → pbWf s') ∧
    (∀ n s', s.trim n = some s' → pbWf s') ∧
    (∀ n, s.data + n ≤ s.size → pbWf (s.reserve n)) ∧
    (∀ hr, hr ≤ s.size → pbWf (s.reset hr)) := by
  obtain ⟨h1, h2⟩ := h
  refine ⟨?_, ?_, ?_, ?_, ?_, ?_, ?_⟩
  · intro hr dl s' hs
    simp only [SkBuff.alloc] at hs
    split at hs
    · exact absurd hs (by simp)
    · injection hs with hx
      subst hx
      exact ⟨Nat.le_refl _, Nat.le_add_right _ _⟩
  · intro n s' hs
    simp only [SkBuff.push, SkBuff.headroom] at hs
    split at hs
    · exact absurd hs (by simp)
    · injection hs with hx
      subst hx
      unfold pbWf
      dsimp only
      omega
  · intro n s' hs
    simp only [SkBuff.pull, SkBuff.len] at hs
    split at hs
    · exact absurd hs (by simp)
    · rename_i hc
      injection hs with hx
      subst hx
      unfold pbWf
      dsimp only
      omega
  · intro n s' hs
    simp only [SkBuff.put, SkBuff.tailroom] at hs
    split at hs
    · exact absurd hs (by simp)
    · rename_i hc
      injection hs with hx
      subst hx
      unfold pbWf
      dsimp only
      omega
  · intro n s' hs
    simp only [SkBuff.trim, SkBuff.len] at hs
    split at hs
    · exact absurd hs (by simp)
    · rename_i hc
      injection hs with hx
      subst hx
      unfold pbWf
      dsimp only
      omega
  · intro n hn
    unfold SkBuff.reserve pbWf
    dsimp only
    omega
  · intro hr hn
    unfold SkBuff.reset pbWf
    dsimp only
    omega

/-- C3 (witness): the amended theorem applied to the concrete 10-byte
buffer. -/
theorem pb_ops_preserve_invariant_witness :
    pbWf skb_c3 ∧
    ((∀ hr dl s', SkBuff.alloc hr dl = some s' → pbWf s') ∧
     (∀ n s', skb_c3.push n = some s' → pbWf s') ∧
     (∀ n s', skb_c3.pull n = some s' → pbWf s') ∧
     (∀ n s', skb_c3.put n = some s' → pbWf s') ∧
     (∀ n s', skb_c3.trim n = some s' → pbWf s') ∧
     (∀ n, skb_c3.data + n ≤ skb_c3.size → pbWf (skb_c3.reserve n)) ∧
     (∀ hr, hr ≤ skb_c3.size → pbWf (skb_c3.reset hr))) :=
  ⟨by decide, pb_ops_preserve_invariant skb_c3 (by decide)⟩

/-- C4 (counterexample): `reset` leaves the attached device reference
and DMA address in place — they are not restored to their
post-allocation value `None`. -/
theorem skb_reset_keeps_dev_and_dma :
    (skb_c4.reset 3).dev ≠ none ∧ (skb_c4.reset 3).dma_addr ≠ none :=
  ⟨by decide, by decide⟩

/-- C4 (amended): `reset(headroom)` returns the buffer to the empty
state (`data = tail = head + headroom`, allocation retained) and clears
the EtherType tag, IP protocol, the mac/network/transport header
offsets, the checksum-offload state and the source/destination
addresses back to their post-allocation values, while the device
reference and the DMA address are retained. -/
theorem skb_reset_clears_tags (s : SkBuff) (hr : Nat) :
    (s.reset hr).data = hr ∧ (s.reset hr).tail = hr ∧
    (s.reset hr).size = s.size ∧
    (s.reset hr).protocol = .Unknown 0 ∧ (s.reset hr).ip_protocol = 0 ∧
    (s.reset hr).transport_header = 0 ∧ (s.reset hr).network_header = 0 ∧
    (s.reset hr).mac_header = 0 ∧ (s.reset hr).ip_summed = .None ∧
    (s.reset hr).saddr = none ∧ (s.reset hr).daddr = none ∧
    (s.reset hr).dev = s.dev ∧ (s.reset hr).dma_addr = s.dma_addr :=
  ⟨rfl, rfl, rfl, rfl, rfl, rfl, rfl, rfl, rfl, rfl, rfl, rfl, rfl⟩

/-- C5 (counterexample): the identity extent of the init namespace has
`count = u32::MAX = 2^32 - 1`, so the id `2^32 - 1` lies outside
`[first, first.saturating_add(count)) = [0, 2^32 - 1)` and is not
mapped in either direction. -/
theorem init_identity_map_misses_umax :
    map_id_down new_identity (U32 - 1) = none ∧
    map_id_up new_identity (U32 - 1) = none :=
  ⟨by decide, by decide⟩

/-- C5 (amended): the UID and GID maps of the init namespace (both are
`new_identity`) are identity maps covering `[0, 2^32 - 1)`: every id
strictly below `2^32 - 1` maps down and up to itself; the id
`2^32 - 1` itself is unmapped. -/
theorem init_identity_maps (id : Nat) (h : id < U32 - 1) :
    map_id_down new_identity id = some id ∧
    map_id_up new_identity id = some id := by
  constructor
  · show map_id_down [⟨0, 0, U32 - 1⟩] id = some id
    simp only [map_id_down, sat_add]
    split_ifs with hc
    · congr 1
      simp only [U32] at *
      omega
    · exfalso
      simp only [U32] at hc h
      omega
  · show map_id_up [⟨0, 0, U32 - 1⟩] id = some id
    simp only [map_id_up, sat_add]
    split_ifs with hc
    · congr 1
      simp only [U32] at *
      omega
    · exfalso
      simp only [U32] at hc h
      omega

/-- C5 (witness): the amended theorem at id 2^32 - 2. -/
theorem init_identity_maps_witness :
    4294967294 < U32 - 1 ∧
    (map_id_down new_identity 4294967294 = some 4294967294 ∧
     map_id_up new_identity 4294967294 = some 4294967294) :=
  ⟨by decide, init_identity_maps 4294967294 (by decide)⟩

/-- C6 (counterexample): the first `set_mapping` on a fresh map
succeeds, but repeating the very same extents fails with EPERM (1):
`set_mapping` only tests whether extents are already present, so the
operation is not idempotent. -/
theorem set_mapping_identical_retry_fails :
    set_mapping [] extC6 = .ok extC6 ∧
    set_mapping extC6 extC6 = .error 1 ∧
    set_mapping extC6 extC6 ≠ .ok extC6 := by
  refine ⟨rfl, rfl, ?_⟩
  intro hcon
  have : (Except.error 1 : Except Int (List UidGidExtent)) = .ok extC6 := hcon
  exact Except.noConfusion this

/-- C6 (amended): setting a UID/GID map succeeds on the first
`set_mapping` call (empty extents); once any extents are present, every
further `set_mapping` call fails with EPERM, even when the new extents
are identical to the ones already set. -/
theorem set_mapping_once :
    (∀ nw : List UidGidExtent, set_mapping [] nw = .ok nw) ∧
    (∀ cur nw : List UidGidExtent, cur ≠ [] → set_mapping cur nw = .error 1) := by
  constructor
  · intro nw
    rfl
  · intro cur nw hc
    cases cur with
    | nil => exact absurd rfl hc
    | cons e rest => rfl

/-- C6 (witness): the amended theorem at a concrete non-empty map. -/
theorem set_mapping_once_witness :
    extC6 ≠ [] ∧ set_mapping extC6 [⟨9, 9, 9⟩] = .error 1 :=
  ⟨by simp [extC6], set_mapping_once.2 extC6 [⟨9, 9, 9⟩] (by simp [extC6])⟩

/-- C8 (confirmed): with a pending sticky error, `read` returns that
error (through `FsError::from_errno(-err)`) before touching the RX
queue — the queue is unchanged even when non-empty — and clears the
error, so the next call no longer observes it. -/
theorem socket_read_sticky_error (s : Socket) (buf_len : Nat) (fnb : Bool)
    (h : s.error ≠ 0) :
    socket_read s buf_len fnb =
      (.err (FsError.from_errno (-s.error)), { s with error := 0 }) ∧
    (socket_read s buf_len fnb).2.rx_buffer = s.rx_buffer ∧
    (socket_read s buf_len fnb).2.error = 0 := by
  have he : socket_read s buf_len fnb =
      (.err (FsError.from_errno (-s.error)), { s with error := 0 }) := by
    unfold socket_read
    rw [if_pos h]
  exact ⟨he, by rw [he], by rw [he]⟩

/-- C7 (counterexample): reading page 1 of a sparse file whose extent
tree maps only block 0, `readpage` propagates the `NotFound` of the
extent search verbatim to its caller — it does not surface an I/O
error. -/
theorem ext4_readpage_hole_returns_not_found :
    ext4_readpage c7_bdev 4096 1 EXT4_EXTENTS_FL holeExtentData 1 4096 =
      .error .NotFound ∧
    (FsError.NotFound : FsError) ≠ .IoError :=
  ⟨rfl, by decide⟩

/-- C7 (amended): when the extent map reports "not found" for the
computed logical block (a sparse hole), `readpage` returns exactly that
not-found result to its caller, unchanged (the `?` operator propagates
it; no conversion to an I/O error happens). -/
theorem ext4_readpage_propagates_not_found (bdev : BlockDev)
    (block_size fuel i_flags : Nat) (i_block : List Nat)
    (page_offset buf_len : Nat)
    (h : extent_map_block bdev fuel i_flags i_block
          (page_offset * PAGE_SIZE / block_size) = .error .NotFound) :
    ext4_readpage bdev block_size fuel i_flags i_block page_offset buf_len =
      .error .NotFound := by
  unfold ext4_readpage
  dsimp only
  rw [h]

/-- C7 (witness): the propagation theorem at the one-extent sparse
file, page 1. -/
theorem ext4_readpage_propagates_not_found_witness :
    extent_map_block c7_bdev 1 EXT4_EXTENTS_FL holeExtentData
      (1 * PAGE_SIZE / 4096) = .error .NotFound ∧
    ext4_readpage c7_bdev 4096 1 EXT4_EXTENTS_FL holeExtentData 1 8 =
      .error .NotFound :=
  ⟨rfl,
   ext4_readpage_propagates_not_found c7_bdev 4096 1 EXT4_EXTENTS_FL
     holeExtentData 1 8 rfl⟩

/-- Maps of a fresh namespace are inverses (both empty). -/
theorem mapsInverse_empty : mapsInverse PidNamespace.empty := by
  intro p t
  constructor <;> intro h <;> exact Option.noConfusion h

/-- Embeds `register` with a fresh pid and a fresh tid preserves the inverse
relation between the two maps. -/
theorem mapsInverse_register {ns : PidNamespace} (h : mapsInverse ns)
    {pid tid : Nat} (hp : ns.pid_map pid = none) (ht : ns.tid_map tid = none) :
    mapsInverse (ns.register pid tid) := by
  intro p t
  simp only [PidNamespace.register, mapInsert]
  constructor
  · intro hpt
    by_cases hpp : p = pid
    · rw [if_pos hpp] at hpt
      injection hpt with h1
      rw [if_pos h1.symm, hpp]
    · rw [if_neg hpp] at hpt
      by_cases htt : t = tid
      · exfalso
        have h2 := (h p t).mp hpt
        rw [htt, ht] at h2
        exact Option.noConfusion h2
      · rw [if_neg htt]
        exact (h p t).mp hpt
  · intro hpt
    by_cases htt : t = tid
    · rw [if_pos htt] at hpt
      injection hpt with h1
      rw [if_pos h1.symm, htt]
    · rw [if_neg htt] at hpt
      by_cases hpp : p = pid
      · exfalso
        have h2 := (h p t).mpr hpt
        rw [hpp, hp] at h2
        exact Option.noConfusion h2
      · rw [if_neg hpp]
        exact (h p t).mpr hpt

/-- Embeds `unregister` preserves the inverse relation between the two maps. -/
theorem mapsInverse_unregister {ns : PidNamespace} (h : mapsInverse ns)
    (tid : Nat) : mapsInverse (ns.unregister tid) := by
  intro p t
  cases hv : ns.tid_map tid with
  | none =>
    simp only [PidNamespace.unregister, hv, mapErase]
    constructor
    · intro hpt
      by_cases htt : t = tid
      · exfalso
        have h2 := (h p t).mp hpt
        rw [htt, hv] at h2
        exact Option.noConfusion h2
      · rw [if_neg htt]
        exact (h p t).mp hpt
    · intro hpt
      by_cases htt : t = tid
      · rw [if_pos htt] at hpt
        exact Option.noConfusion hpt
      · rw [if_neg htt] at hpt
        exact (h p t).mpr hpt
  | some p0 =>
    have hp0 : ns.pid_map p0 = some tid := (h p0 tid).mpr hv
    simp only [PidNamespace.unregister, hv, mapErase]
    constructor
    · intro hpt
      by_cases hpp : p = p0
      · rw [if_pos hpp] at hpt
        exact Option.noConfusion hpt
      · rw [if_neg hpp] at hpt
        by_cases htt : t = tid
        · exfalso
          have h2 := (h p t).mp hpt
          rw [htt, hv] at h2
          injection h2 with h3
          exact hpp h3.symm
        · rw [if_neg htt]
          exact (h p t).mp hpt
    · intro hpt
      by_cases htt : t = tid
      · rw [if_pos htt] at hpt
        exact Option.noConfusion hpt
      · rw [if_neg htt] at hpt
        by_cases hpp : p = p0
        · exfalso
          have h2 := (h p t).mpr hpt
          rw [hpp, hp0] at h2
          injection h2 with h3
          exact htt h3.symm
        · rw [if_neg hpp]
          exact (h p t).mpr hpt

/-- Running a valid call sequence from an inverse-consistent state keeps
the maps inverse. -/
theorem runOps_inverse : ∀ (ops : List PidOp) (ns : PidNamespace),
    mapsInverse ns → validOps ns ops = true →
    mapsInverse (ns.runOps ops) := by
  intro ops
  induction ops with
  | nil =>
    intro ns h _
    exact h
  | cons op rest ih =>
    intro ns h hv
    cases op with
    | register pid tid =>
      simp only [validOps, Bool.and_eq_true, Option.isNone_iff_eq_none] at hv
      obtain ⟨⟨hp, ht⟩, hrest⟩ := hv
      exact ih _ (mapsInverse_register h hp ht) hrest
    | unregister tid =>
      simp only [validOps] at hv
      exact ih _ (mapsInverse_unregister h tid) hv

/-- C10 (confirmed): from the empty PID namespace, any sequence of
`register` calls on currently-unused pids and tids, interleaved with
arbitrary `unregister` calls, keeps `pid_map` and `tid_map` exact
inverses: `pid_map p = Some t` iff `tid_map t = Some p`. -/
theorem pid_maps_exact_inverses (ops : List PidOp)
    (h : validOps PidNamespace.empty ops = true) :
    mapsInverse (PidNamespace.empty.runOps ops) :=
  runOps_inverse ops PidNamespace.empty mapsInverse_empty h

/-- C10 (witness): the inverse-maps theorem on a concrete
register/unregister sequence. -/
theorem pid_maps_exact_inverses_witness :
    validOps PidNamespace.empty c10_ops = true ∧
    mapsInverse (PidNamespace.empty.runOps c10_ops) :=
  ⟨by decide, pid_maps_exact_inverses c10_ops (by decide)⟩

/-- C8 (witness): the sticky-error theorem at a socket holding
`-ECONNRESET` with a non-empty RX queue. -/
theorem socket_read_sticky_error_witness :
    sock_c8.error ≠ 0 ∧
    (socket_read sock_c8 2 false =
        (.err (FsError.from_errno (-sock_c8.error)), { sock_c8 with error := 0 }) ∧
     (socket_read sock_c8 2 false).2.rx_buffer = sock_c8.rx_buffer ∧
     (socket_read sock_c8 2 false).2.error = 0) :=
  ⟨by decide, socket_read_sticky_error sock_c8 2 false (by decide)⟩

end HK
